import Mathlib

/-!
# Verification of the `run` command orchestrator (instantbots/cli)

Shallow embedding of the local function-invocation orchestrator
(`RunCommand.run` in the CLI source): argument validation, path
normalization, the readiness gate, request construction, streaming-event
processing, the 500 error reconstructor and the final printing, together
with theorems checking the natural-language specification against it.

JavaScript machinery used by the source (`JSON.parse`, `JSON.stringify`,
string methods, property access on parsed values) is embedded explicitly.
JSON numbers are modelled as integers (no claim involves fractional
numbers) and `\u` escapes are not modelled; ANSI color wrappers from the
`colors` library are modelled as the identity on the printed text.
-/

namespace InstantRun

/-- A left brace character (written via its code point). -/
def lbrace : Char := Char.ofNat 123

/-- A right brace character (written via its code point). -/
def rbrace : Char := Char.ofNat 125

/-- JavaScript values produced by `JSON.parse`: the model uses integers for
JSON numbers. -/
inductive JsValue where
  | null : JsValue
  | bool (b : Bool) : JsValue
  | num (n : Int) : JsValue
  | str (s : String) : JsValue
  | arr (elems : List JsValue) : JsValue
  | obj (fields : List (String × JsValue)) : JsValue
deriving Inhabited

/-- Does `pat` occur contiguously in the haystack? (scan over suffixes). -/
def listContains (pat : List Char) : List Char → Bool
  | [] => pat.isEmpty
  | c :: t => pat.isPrefixOf (c :: t) || listContains pat t

/-- Substring containment, the model of JavaScript `String.prototype.includes`. -/
def containsSub (s pat : String) : Bool :=
  listContains pat.toList s.toList

/-- The model of JavaScript `String.prototype.startsWith`. -/
def jsStartsWith (s pre : String) : Bool :=
  pre.toList.isPrefixOf s.toList

/-- The model of JavaScript `String.prototype.slice(n)` for `n ≥ 0`. -/
def jsDrop (s : String) (n : Nat) : String :=
  String.mk (s.toList.drop n)

/-- Split a character list on newline characters. -/
def splitNl : List Char → List (List Char)
  | [] => [[]]
  | c :: cs =>
    if c = '\n' then [] :: splitNl cs
    else
      match splitNl cs with
      | [] => [[c]]
      | l :: ls => (c :: l) :: ls

/-- The model of JavaScript `String.prototype.split('\n')`. -/
def jsLines (s : String) : List String :=
  (splitNl s.toList).map String.mk

/-- The model of JavaScript `String.prototype.toLowerCase()` (ASCII). -/
def jsToLower (s : String) : String :=
  String.mk (s.toList.map Char.toLower)

/-- The model of JavaScript `String.prototype.toUpperCase()` (ASCII). -/
def jsToUpper (s : String) : String :=
  String.mk (s.toList.map Char.toUpper)

/-- Join a list of strings with a separator (`Array.prototype.join`). -/
def joinWith (sep : String) : List String → String
  | [] => ""
  | [x] => x
  | x :: y :: xs => x ++ sep ++ joinWith sep (y :: xs)

/-- Skip JSON whitespace. -/
def skipWs : List Char → List Char
  | [] => []
  | c :: cs => if c = ' ' ∨ c = '\n' ∨ c = '\t' ∨ c = '\r' then skipWs cs else c :: cs

/-- Parse the character content of a JSON string after the opening quote,
decoding escapes; returns the decoded characters and the rest after the
closing quote. -/
def parseStrChars : Nat → List Char → Option (List Char × List Char)
  | 0, _ => none
  | _ + 1, [] => none
  | fuel + 1, c :: rest =>
    if c = '"' then some ([], rest)
    else if c = '\\' then
      match rest with
      | [] => none
      | e :: rest2 =>
        let dec : Option Char :=
          if e = 'n' then some '\n'
          else if e = 't' then some '\t'
          else if e = 'r' then some '\r'
          else if e = '"' then some '"'
          else if e = '\\' then some '\\'
          else if e = '/' then some '/'
          else if e = 'b' then some (Char.ofNat 8)
          else if e = 'f' then some (Char.ofNat 12)
          else none
        match dec with
        | none => none
        | some ch =>
          match parseStrChars fuel rest2 with
          | none => none
          | some (s, r) => some (ch :: s, r)
    else
      match parseStrChars fuel rest with
      | none => none
      | some (s, r) => some (c :: s, r)

/-- Split off a maximal run of decimal digits. -/
def takeDigits : List Char → List Char × List Char
  | [] => ([], [])
  | c :: cs =>
    if c.isDigit then
      let (ds, rest) := takeDigits cs
      (c :: ds, rest)
    else ([], c :: cs)

/-- Numeric value of a digit run. -/
def digitsToNat (ds : List Char) : Nat :=
  ds.foldl (fun n c => 10 * n + (c.toNat - 48)) 0

/-- Check that a literal keyword is a prefix of the input; return the rest. -/
def expectLit : List Char → List Char → Option (List Char)
  | [], cs => some cs
  | _ :: _, [] => none
  | l :: ls, c :: cs => if c = l then expectLit ls cs else none

mutual

/-- Recursive-descent JSON value parser (fuel-indexed). -/
def parseVal : Nat → List Char → Option (JsValue × List Char)
  | 0, _ => none
  | fuel + 1, cs =>
    match skipWs cs with
    | [] => none
    | c :: rest =>
      if c = 'n' then
        match expectLit ['u', 'l', 'l'] rest with
        | some r => some (.null, r)
        | none => none
      else if c = 't' then
        match expectLit ['r', 'u', 'e'] rest with
        | some r => some (.bool true, r)
        | none => none
      else if c = 'f' then
        match expectLit ['a', 'l', 's', 'e'] rest with
        | some r => some (.bool false, r)
        | none => none
      else if c = '"' then
        match parseStrChars (fuel + 1) rest with
        | some (s, r) => some (.str (String.mk s), r)
        | none => none
      else if c = '-' then
        match takeDigits rest with
        | ([], _) => none
        | (ds, r) => some (.num (-(digitsToNat ds : Int)), r)
      else if c.isDigit then
        match takeDigits (c :: rest) with
        | ([], _) => none
        | (ds, r) => some (.num (digitsToNat ds : Int), r)
      else if c = '[' then
        match skipWs rest with
        | ']' :: r => some (.arr [], r)
        | cs2 => match parseElems fuel cs2 with
          | some (xs, r) => some (.arr xs, r)
          | none => none
      else if c = lbrace then
        match skipWs rest with
        | c2 :: r =>
          if c2 = rbrace then some (.obj [], r)
          else match parseFields fuel (c2 :: r) with
            | some (fs, r2) => some (.obj fs, r2)
            | none => none
        | [] => none
      else none

/-- Parse one-or-more comma-separated array elements then `]`. -/
def parseElems : Nat → List Char → Option (List JsValue × List Char)
  | 0, _ => none
  | fuel + 1, cs =>
    match parseVal fuel cs with
    | none => none
    | some (v, r) =>
      match skipWs r with
      | ',' :: r2 =>
        match parseElems fuel r2 with
        | some (xs, r3) => some (v :: xs, r3)
        | none => none
      | ']' :: r2 => some ([v], r2)
      | _ => none

/-- Parse one-or-more comma-separated object fields then the closing brace. -/
def parseFields : Nat → List Char → Option (List (String × JsValue) × List Char)
  | 0, _ => none
  | fuel + 1, cs =>
    match skipWs cs with
    | '"' :: r =>
      match parseStrChars (fuel + 1) r with
      | none => none
      | some (k, r2) =>
        match skipWs r2 with
        | ':' :: r3 =>
          match parseVal fuel r3 with
          | none => none
          | some (v, r4) =>
            match skipWs r4 with
            | ',' :: r5 =>
              match parseFields fuel r5 with
              | some (fs, r6) => some ((String.mk k, v) :: fs, r6)
              | none => none
            | c :: r5 =>
              if c = rbrace then some ([(String.mk k, v)], r5) else none
            | [] => none
        | _ => none
    | _ => none

end

/-- Model of JavaScript `JSON.parse` on the subset of JSON the orchestrator
exchanges with the server: `none` models a thrown `SyntaxError`. -/
def jsonParse (s : String) : Option JsValue :=
  match parseVal (2 * s.length + 8) s.toList with
  | some (v, rest) => if skipWs rest = [] then some v else none
  | none => none

/-- Escape one character for JSON string output. -/
def escChar (c : Char) : String :=
  if c = '"' then "\\\""
  else if c = '\\' then "\\\\"
  else if c = '\n' then "\\n"
  else if c = '\t' then "\\t"
  else if c = '\r' then "\\r"
  else String.singleton c

/-- Quote and escape a string as a JSON string literal. -/
def jsonQuote (s : String) : String :=
  "\"" ++ String.join (s.toList.map escChar) ++ "\""

mutual

/-- Model of compact `JSON.stringify`. -/
def jsonStringify : JsValue → String
  | .null => "null"
  | .bool true => "true"
  | .bool false => "false"
  | .num n => toString n
  | .str s => jsonQuote s
  | .arr xs => "[" ++ joinWith "," (stringifyList xs) ++ "]"
  | .obj fs =>
      String.singleton lbrace ++ joinWith "," (stringifyFields fs) ++
        String.singleton rbrace

/-- Stringify every element of a list of JSON values. -/
def stringifyList : List JsValue → List String
  | [] => []
  | v :: vs => jsonStringify v :: stringifyList vs

/-- Stringify every field of a JSON object. -/
def stringifyFields : List (String × JsValue) → List String
  | [] => []
  | (k, v) :: fs => (jsonQuote k ++ ":" ++ jsonStringify v) :: stringifyFields fs

end

/-- An indentation string of `n` spaces. -/
def indentOf (n : Nat) : String := String.mk (List.replicate n ' ')

mutual

/-- Model of `JSON.stringify(v, null, 2)` (two-space pretty printing) at
indentation level `lvl`. -/
def jsonStringifyPretty (lvl : Nat) : JsValue → String
  | .arr [] => "[]"
  | .arr (x :: xs) =>
      "[\n" ++ joinWith ",\n" (prettyList (lvl + 2) (x :: xs)) ++
        "\n" ++ indentOf lvl ++ "]"
  | .obj [] => String.singleton lbrace ++ String.singleton rbrace
  | .obj (f :: fs) =>
      String.singleton lbrace ++ "\n" ++
        joinWith ",\n" (prettyFields (lvl + 2) (f :: fs)) ++
        "\n" ++ indentOf lvl ++ String.singleton rbrace
  | .null => "null"
  | .bool true => "true"
  | .bool false => "false"
  | .num n => toString n
  | .str s => jsonQuote s

/-- Pretty-print array elements, each on its own indented line. -/
def prettyList (lvl : Nat) : List JsValue → List String
  | [] => []
  | v :: vs => (indentOf lvl ++ jsonStringifyPretty lvl v) :: prettyList lvl vs

/-- Pretty-print object fields, each on its own indented line. -/
def prettyFields (lvl : Nat) : List (String × JsValue) → List String
  | [] => []
  | (k, v) :: fs =>
      (indentOf lvl ++ jsonQuote k ++ ": " ++ jsonStringifyPretty lvl v) ::
        prettyFields lvl fs

end

mutual

/-- Model of JavaScript string conversion (template literals, `.toString()`)
on parsed JSON values. -/
def jsToString : JsValue → String
  | .null => "null"
  | .bool true => "true"
  | .bool false => "false"
  | .num n => toString n
  | .str s => s
  | .arr xs => joinWith "," (jsToStringList xs)
  | .obj _ => "[object Object]"

/-- String conversion of each array element (JavaScript `Array.prototype.toString`). -/
def jsToStringList : List JsValue → List String
  | [] => []
  | v :: vs => jsToString v :: jsToStringList vs

end

/-- JavaScript truthiness of a parsed JSON value. -/
def jsTruthy : JsValue → Bool
  | .null => false
  | .bool b => b
  | .num n => n ≠ 0
  | .str s => s ≠ ""
  | .arr _ => true
  | .obj _ => true

/-- JavaScript property access `v[key]` on a parsed JSON value: `none` models
`undefined` (non-object receivers and missing keys; `null` receivers throw,
but the orchestrator only dereferences the result of the lookup, so both
cases surface as the same `TypeError` below). -/
def jsGetProp (v : JsValue) (key : String) : Option JsValue :=
  match v with
  | .obj fs =>
    match fs.find? (fun f => f.1 = key) with
    | some f => some f.2
    | none => none
  | _ => none

/-- CLI input to `RunCommand.run`: the positional arguments, the repeated
`-m` flag values (`params.flags['m']`), whether the verbose `-v` flag is
set (`params.flags.v` truthy), and the named vflags, each carrying the list
of words given for it. -/
structure Params where
  args : List String
  flagsM : List String
  flagV : Bool
  vflags : List (String × List String)

/-- One frame of the multiplexed response stream, as handed to the
`io.request` callback. -/
structure StreamEvent where
  id : String
  event : String
  data : String

/-- The behaviour of the environment observed by one run: the stdout chunks
the child emits with their arrival times in milliseconds (only chunks
arriving before the watchdog fires can set the readiness latch), the stream
frames delivered to the request callback in order, and the final HTTP
envelope `{statusCode, body}` the stream resolves with.

`reqRefused` matters only when the child never announced readiness and was
killed by the watchdog: it says whether the subsequent `io.request` to the
port is refused (`true`: nothing listens there, the request rejects with a
connection error) or answered by some other process occupying the port
(`false`: `events`/`statusCode`/`body` describe that answer). When the
child did announce readiness it is the one listening, the connection
succeeds, and the field is not consulted. -/
structure ServerEnv where
  stdoutChunks : List (Nat × String)
  events : List StreamEvent
  statusCode : Nat
  body : String
  reqRefused : Bool

/-- The single HTTP request handed to `io.request` (the headers argument is
always the empty object in the source and is omitted). -/
structure Request where
  method : String
  url : String
  query : List (String × String)
  reqBody : String

/-- Errors thrown by `RunCommand.run`. The source throws plain `Error`s;
the constructors name the throw sites. `constAssignment` is the `TypeError`
from reassigning the `const` binding `method`; `resultBodyTypeError` is the
`TypeError` from evaluating `result.body.toString()` when no usable
`@response` result was captured; the two `eventData` errors model
exceptions thrown inside the stream callback by `JSON.parse` / `split`;
`requestConnectionError` is the rejection of `io.request` when nothing
accepts the connection on the port. `readinessTimeout` is the error the
watchdog constructs at lines 131-136; the run never surfaces it (the poller
wins the race first, see `runCommand`), so no run output carries it - it is
kept so that theorems can state its absence. -/
inductive RunError where
  | methodNotSupported (method : String) : RunError
  | constAssignment : RunError
  | missingPathname : RunError
  | invalidPathname (pathname : String) : RunError
  | readinessTimeout (port : Nat) : RunError
  | remoteError (message : String) : RunError
  | resultBodyTypeError : RunError
  | eventDataParseError (data : String) : RunError
  | eventDataNotString (event : String) : RunError
  | requestConnectionError : RunError
deriving DecidableEq

/-- Running state of the `io.request` callback: the last captured
`@response` payload and the lines printed so far, in order. -/
structure CallbackState where
  result : Option JsValue
  printed : List String

/-- Observable outcome of one `RunCommand.run` invocation: how many child
processes were spawned and how many `killProcess` calls were made, the
request given to `io.request` (if any), every line printed, and the return
value or thrown error. -/
structure RunOutput where
  spawnCount : Nat
  killCount : Nat
  requestSent : Option Request
  printed : List String
  outcome : Except RunError Unit

/-- The fixed local port of the development server (`const port = 8199`). -/
def port : Nat := 8199

/-- The readiness timeout in milliseconds (`const timeout = 5000`). -/
def timeoutMs : Nat := 5000

/-- The raw method string before validation:
`((params.flags['m'] || [])[0] || 'get').toLowerCase()`. The `|| 'get'`
default also applies when the first `-m` value is the empty string. -/
def rawMethod (flagsM : List String) : String :=
  jsToLower
    (match flagsM.head? with
     | some s => if s = "" then "get" else s
     | none => "get")

/-- Method validation and `del` normalization as written in the source:
`method` is a `const` binding, so the `method = 'delete'` branch throws a
`TypeError` (assignment to constant variable) instead of normalizing. -/
def normalizeMethod (flagsM : List String) : Except RunError String :=
  let method := rawMethod flagsM
  if ["get", "post", "put", "delete", "del"].contains method = false then
    .error (.methodNotSupported method)
  else if method = "del" then
    .error .constAssignment
  else
    .ok method

/-- `String.prototype.join(' ')` on a list of words. -/
def joinSpace (ws : List String) : String := joinWith " " ws

/-- JavaScript object property write `o[k] = v` on an object modelled as an
insertion-ordered association list: overwrite in place or append. -/
def objSet (o : List (String × String)) (k v : String) : List (String × String) :=
  match o with
  | [] => [(k, v)]
  | e :: rest => if e.1 = k then (k, v) :: rest else e :: objSet rest k v

/-- JavaScript object property read `o[k]`. -/
def objGet (o : List (String × String)) (k : String) : Option String :=
  match o.find? (fun e => e.1 = k) with
  | some e => some e.2
  | none => none

/-- The parameter map built from the vflags:
`Object.keys(params.vflags).reduce((fp, key) => fp[key] = vflags[key].join(' '), {})`. -/
def buildFunctionParams (vflags : List (String × List String)) : List (String × String) :=
  vflags.foldl (fun acc kv => objSet acc kv.1 (joinSpace kv.2)) []

/-- Pathname validation and normalization as written in the source: reject
empty (falsy) and `..`-leading pathnames, then strip one leading `.` (if
any) and afterwards one leading `/` (if any). -/
def normalizePathname (args : List String) : Except RunError String :=
  let pathname := args.headD ""
  if pathname = "" then
    .error .missingPathname
  else if jsStartsWith pathname ".." then
    .error (.invalidPathname pathname)
  else
    let p1 := if jsStartsWith pathname "." then jsDrop pathname 1 else pathname
    let p2 := if jsStartsWith p1 "/" then jsDrop p1 1 else p1
    .ok p2

/-- Whether one stdout chunk matches a readiness line for `port` (either
literal pattern sets the `isConnected` latch). -/
def readinessMatch (port : Nat) (message : String) : Bool :=
  containsSub message s!"*** Listening on localhost:{port}" ||
    containsSub message s!"Unable to spawn HTTP Workers, listening on port {port}"

/-- The readiness latch as observed by the watchdog: set iff some stdout
chunk arriving strictly before the timeout matches a readiness pattern. -/
def isConnectedWithin (port limit : Nat) (chunks : List (Nat × String)) : Bool :=
  chunks.any (fun c => decide (c.1 < limit) && readinessMatch port c.2)

/-- Process one stream frame exactly as the `io.request` callback does;
`.error` models an exception escaping the callback. -/
def processEvent (verbose : Bool) (st : CallbackState) (ev : StreamEvent) :
    Except RunError CallbackState :=
  if ev.event = "@response" then
    match jsonParse ev.data with
    | none => .error (.eventDataParseError ev.data)
    | some json => .ok { st with result := some json }
  else if ev.event = "@stdout" then
    match jsonParse ev.data with
    | none => .error (.eventDataParseError ev.data)
    | some (.str s) =>
      .ok { st with printed := st.printed ++
        (jsLines s).map (fun line => (if verbose then "stdout> " else "") ++ line) }
    | some _ => .error (.eventDataNotString ev.event)
  else if ev.event = "@stderr" then
    match jsonParse ev.data with
    | none => .error (.eventDataParseError ev.data)
    | some (.str s) =>
      .ok { st with printed := st.printed ++
        (jsLines s).map (fun line => (if verbose then "stderr> " else "") ++ line) }
    | some _ => .error (.eventDataNotString ev.event)
  else
    let e := ev.event
    let d := ev.data
    .ok { st with printed := st.printed ++ [s!"{e}> {d}"] }

/-- Process the stream frames in arrival order, carrying the callback state;
a callback exception aborts processing and is reported with the state
reached so far. -/
def processEvents (verbose : Bool) (st : CallbackState) :
    List StreamEvent → CallbackState × Option RunError
  | [] => (st, none)
  | ev :: rest =>
    match processEvent verbose st ev with
    | .error e => (st, some e)
    | .ok st2 => processEvents verbose st2 rest

/-- The single-line error message derived from a 500 response body: the
`startsWith` check uses `'Application Error:'` while the slice length is
that of `'Application Error: '` (19 characters), then only the first line
is kept. -/
def errorMessage500 (body : String) : String :=
  let errorMessage :=
    if jsStartsWith body "Application Error:" then
      jsDrop body ("Application Error: ".length)
    else body
  (jsLines errorMessage).headD ""

/-- The verbose summary block printed when `-v` is set (lines 206-213 of
the source), with ANSI color wrappers elided. -/
def verboseLines (url pathname method : String) (result : JsValue)
    (functionParams : List (String × String)) : List String :=
  [ "location:  " ++ url ++ "/" ++ pathname,
    "method:    " ++ jsToUpper method,
    "status:    " ++
      (match jsGetProp result "statusCode" with
       | some v => jsToString v
       | none => "undefined"),
    "arguments: ",
    jsonStringifyPretty 0 (.obj (functionParams.map (fun kv => (kv.1, .str kv.2)))),
    "result:" ]

/-- The orchestrator `RunCommand.run`, as a function of the CLI input and
the observed environment. Mirrors the source line by line: validate method
and pathname, spawn, race the poller against the watchdog, build and send
the request, fold the callback over the stream frames, reconstruct the 500
error or dereference the captured result, kill the child, print.

The readiness race (lines 124-145) resolves as follows. When a readiness
line arrives in time the poller returns `true` and the run proceeds (the
watchdog later finds `isConnected` set and does nothing). When no readiness
line arrives within the timeout, the watchdog sets `isTimedOut`, invokes
`killProcess` - one invocation - and only throws after awaiting it; but
`tree-kill` spawns helper processes and cannot settle before the poller
ticks again (its sleep is 1 ms), so the poller observes `isTimedOut`, exits
its loop and fulfills the race with `true` first. `Promise.race` is then
already settled, the watchdog's later rejection is discarded, and execution
continues to `io.request` against the killed child: the timeout error
message is never surfaced. If nothing accepts the connection
(`env.reqRefused`) the request rejects with a connection error the source
does not catch; otherwise whatever answers on the port is consumed exactly
like a normal response, and a successful outcome then reaches the second
`killProcess` at line 205 (`tree-kill` tolerates the already-dead pid). -/
def runCommand (params : Params) (env : ServerEnv) : RunOutput :=
  let url := s!"http://localhost:{port}"
  match normalizeMethod params.flagsM with
  | .error e => ⟨0, 0, none, [], .error e⟩
  | .ok method =>
    let functionParams := buildFunctionParams params.vflags
    match normalizePathname params.args with
    | .error e => ⟨0, 0, none, [], .error e⟩
    | .ok pathname =>
      -- `localServer.run({port, isBackground: true})` spawns the child here.
      let isConnected := isConnectedWithin port timeoutMs env.stdoutChunks
      -- killProcess invocations made by the watchdog before its swallowed throw.
      let watchdogKills := if isConnected then 0 else 1
      let queryParams :=
        objSet (if method = "get" ∨ method = "delete" then functionParams else [])
          "_debug" "true"
      let bodyParams :=
        if method = "post" ∨ method = "put" then
          jsonStringify (.obj (functionParams.map (fun kv => (kv.1, .str kv.2))))
        else ""
      let req : Request := ⟨jsToUpper method, url ++ "/" ++ pathname, queryParams, bodyParams⟩
      if !isConnected && env.reqRefused then
        ⟨1, watchdogKills, some req, [], .error .requestConnectionError⟩
      else
        match processEvents params.flagV ⟨none, []⟩ env.events with
        | (st, some e) => ⟨1, watchdogKills, some req, st.printed, .error e⟩
        | (st, none) =>
          if env.statusCode = 500 then
            ⟨1, watchdogKills, some req, st.printed,
              .error (.remoteError (errorMessage500 env.body))⟩
          else
            match st.result with
            | none => ⟨1, watchdogKills, some req, st.printed, .error .resultBodyTypeError⟩
            | some result =>
              match jsGetProp result "body" with
              | none => ⟨1, watchdogKills, some req, st.printed, .error .resultBodyTypeError⟩
              | some .null => ⟨1, watchdogKills, some req, st.printed, .error .resultBodyTypeError⟩
              | some bodyVal =>
                let body := jsToString bodyVal
                let json : Option JsValue := jsonParse body
                let tail :=
                  (if params.flagV then
                    verboseLines url pathname method result functionParams
                   else []) ++
                  [ match json with
                    | some j => if jsTruthy j then jsonStringifyPretty 0 j else body
                    | none => body ]
                ⟨1, watchdogKills + 1, some req, st.printed ++ tail, .ok ()⟩


/-! ## Spec-side comparison definitions (from the claims' words) -/

/-- The 500 error message as the claim describes it (comparison definition,
written from the spec's words, not from the source): strip the prefix
`'Application Error: '` exactly when the body starts with it (trailing
space included), then keep only the first line. -/
def claimedErrorMessage (body : String) : String :=
  let m :=
    if jsStartsWith body "Application Error: " then
      jsDrop body ("Application Error: ".length)
    else body
  (jsLines m).headD ""

/-- Path normalization as the claim describes it (comparison definition,
written from the spec's words, not from the source): strip at most one
leading `.` and then all leading `/` characters. -/
def claimedNormalizePath (p : String) : String :=
  let p1 := if jsStartsWith p "." then jsDrop p 1 else p
  String.mk (p1.toList.dropWhile (fun c => c = '/'))

/-! ## Shared concrete scenarios -/

/-- A readiness chunk arriving 100 ms after spawn. -/
def okChunk : Nat × String := (100, "*** Listening on localhost:8199")

/-- Baseline CLI input: pathname `/hello`, default method, not verbose,
no vflags. -/
def baseParams : Params := ⟨["/hello"], [], false, []⟩

/-- An `@response` frame payload: `{"statusCode":200,"body":"{\"ok\":true}"}`. -/
def respData : String :=
  "\x7b\"statusCode\":200,\"body\":\"\x7b\\\"ok\\\":true\x7d\"\x7d"

/-- An `@stdout` frame carrying the JSON-encoded string `"hello"`. -/
def stdoutEvent : StreamEvent := ⟨"1", "@stdout", "\"hello\""⟩

/-- An `@response` frame carrying `respData`. -/
def responseEvent : StreamEvent := ⟨"2", "@response", respData⟩

/-- A child that never prints a readiness line, with nothing else listening
on the port: after the watchdog's kill, `io.request` is refused. -/
def envTimeout : ServerEnv := ⟨[], [], 200, "", true⟩

/-- A child that never prints a readiness line while another process
occupies the port (the conflict the timeout message warns about): after the
watchdog's kill, `io.request` is answered with a normal success stream. -/
def envTimeoutAnswered : ServerEnv := ⟨[], [stdoutEvent, responseEvent], 200, "", false⟩

/-- Server that becomes ready and then answers 500 with a prefixed body. -/
def env500 : ServerEnv := ⟨[okChunk], [], 500, "Application Error: boom\nstack line 2", false⟩

/-- Server that becomes ready and answers 500 with a body starting with
`Application Error:` but no trailing space after the colon. -/
def envColon500 : ServerEnv := ⟨[okChunk], [], 500, "Application Error:boom", false⟩

/-- Server that becomes ready, ends the stream without any `@response`
frame and resolves with status 200. -/
def envProto : ServerEnv := ⟨[okChunk], [], 200, "", false⟩

/-- Server that becomes ready, streams `@stdout` then `@response`, and
resolves with status 200. -/
def envOk : ServerEnv := ⟨[okChunk], [stdoutEvent, responseEvent], 200, "", false⟩

/-- The request the baseline GET run sends. -/
def baseRequest : Request := ⟨"GET", "http://localhost:8199/hello", [("_debug", "true")], ""⟩

/-- `JSON.stringify({"ok":true}, null, 2)`. -/
def okPretty : String := "\x7b\n  \"ok\": true\n\x7d"

/-! ## Helper lemmas on stream processing and the parameter map -/

/-- Processing a concatenation of frame lists with a clean first half is
processing the halves in sequence (events are consumed in arrival order). -/
theorem processEvents_append (v : Bool) (e1 e2 : List StreamEvent) :
    ∀ st st1 : CallbackState, processEvents v st e1 = (st1, none) →
      processEvents v st (e1 ++ e2) = processEvents v st1 e2 := by
  induction e1 with
  | nil =>
    intro st st1 h
    simp only [processEvents, Prod.mk.injEq] at h
    rw [List.nil_append, h.1]
  | cons ev rest ih =>
    intro st st1 h
    rw [List.cons_append]
    simp only [processEvents] at h ⊢
    cases hpe : processEvent v st ev with
    | error e => rw [hpe] at h; simp at h
    | ok st2 => rw [hpe] at h; exact ih st2 st1 h

/-- One callback step only appends to the printed lines. -/
theorem processEvent_printed (v : Bool) (st : CallbackState) (ev : StreamEvent)
    (st2 : CallbackState) (h : processEvent v st ev = .ok st2) :
    ∃ t, st2.printed = st.printed ++ t := by
  unfold processEvent at h
  repeat' split at h
  all_goals (cases h)
  all_goals first
    | exact ⟨_, rfl⟩
    | exact ⟨[], (List.append_nil _).symm⟩

/-- The printed lines only grow over stream processing, whether or not the
callback eventually fails. -/
theorem processEvents_printed (v : Bool) (evs : List StreamEvent) :
    ∀ (st st1 : CallbackState) (r : Option RunError),
      processEvents v st evs = (st1, r) → ∃ t, st1.printed = st.printed ++ t := by
  induction evs with
  | nil =>
    intro st st1 r h
    simp only [processEvents, Prod.mk.injEq] at h
    rw [← h.1]
    exact ⟨[], by simp⟩
  | cons ev rest ih =>
    intro st st1 r h
    unfold processEvents at h
    cases hpe : processEvent v st ev with
    | error e =>
      rw [hpe] at h
      simp only [Prod.mk.injEq] at h
      rw [← h.1]
      exact ⟨[], by simp⟩
    | ok st2 =>
      rw [hpe] at h
      obtain ⟨t1, ht1⟩ := processEvent_printed v st ev st2 hpe
      obtain ⟨t2, ht2⟩ := ih st2 st1 r h
      exact ⟨t1 ++ t2, by rw [ht2, ht1, List.append_assoc]⟩

/-- A callback step on a frame that is not `@response` leaves the captured
result unchanged. -/
theorem processEvent_result (v : Bool) (st : CallbackState) (ev : StreamEvent)
    (st2 : CallbackState) (hne : ev.event ≠ "@response")
    (h : processEvent v st ev = .ok st2) : st2.result = st.result := by
  unfold processEvent at h
  rw [if_neg hne] at h
  repeat' split at h
  all_goals (cases h)
  all_goals rfl

/-- If no `@response` frame occurs then clean stream processing leaves the
captured result unchanged. -/
theorem processEvents_result (v : Bool) (evs : List StreamEvent)
    (hne : ∀ ev ∈ evs, ev.event ≠ "@response") :
    ∀ st st1 : CallbackState, processEvents v st evs = (st1, none) →
      st1.result = st.result := by
  induction evs with
  | nil =>
    intro st st1 h
    simp only [processEvents, Prod.mk.injEq] at h
    rw [← h.1]
  | cons ev rest ih =>
    intro st st1 h
    unfold processEvents at h
    cases hpe : processEvent v st ev with
    | error e => rw [hpe] at h; simp at h
    | ok st2 =>
      rw [hpe] at h
      have h2 := ih (fun e he => hne e (List.mem_cons_of_mem ev he)) st2 st1 h
      rw [h2, processEvent_result v st ev st2 (hne ev (List.mem_cons_self ev rest)) hpe]

/-- Writing a fresh key appends it at the end of the object. -/
theorem objSet_append (o : List (String × String)) (k v : String)
    (h : ∀ e ∈ o, e.1 ≠ k) : objSet o k v = o ++ [(k, v)] := by
  induction o with
  | nil => rfl
  | cons e rest ih =>
    unfold objSet
    rw [if_neg (h e (List.mem_cons_self e rest))]
    rw [ih (fun e2 he2 => h e2 (List.mem_cons_of_mem e he2))]
    rfl

/-- With pairwise-distinct vflag names (a JavaScript object cannot repeat a
key), the reduce builds exactly one space-joined entry per vflag, in order. -/
theorem buildFunctionParams_eq_map (vflags : List (String × List String))
    (hnd : (vflags.map Prod.fst).Nodup) :
    buildFunctionParams vflags = vflags.map (fun kv => (kv.1, joinSpace kv.2)) := by
  have general : ∀ (vf : List (String × List String)) (acc : List (String × String)),
      (vf.map Prod.fst).Nodup →
      (∀ kv ∈ vf, ∀ e ∈ acc, e.1 ≠ kv.1) →
      vf.foldl (fun a kv => objSet a kv.1 (joinSpace kv.2)) acc =
        acc ++ vf.map (fun kv => (kv.1, joinSpace kv.2)) := by
    intro vf
    induction vf with
    | nil => intro acc _ _; simp
    | cons kv rest ih =>
      intro acc hnd2 hdisj
      rw [List.map_cons, List.nodup_cons] at hnd2
      rw [List.foldl_cons]
      rw [objSet_append acc kv.1 (joinSpace kv.2)
        (fun e he => hdisj kv (List.mem_cons_self kv rest) e he)]
      rw [ih (acc ++ [(kv.1, joinSpace kv.2)]) hnd2.2 ?_]
      · simp
      · intro kv2 hkv2 e he
        rcases List.mem_append.mp he with h1 | h1
        · exact hdisj kv2 (List.mem_cons_of_mem kv hkv2) e h1
        · rcases List.mem_singleton.mp h1 with rfl
          intro hk
          exact hnd2.1 (hk ▸ List.mem_map_of_mem Prod.fst hkv2)
  exact general vflags [] hnd (by intro kv _ e he; cases he)

/-- The without-space readiness of the source's prefix test: a body starting
with `'Application Error: '` in particular starts with `'Application Error:'`. -/
theorem startsWith_colon_of_space (body : String)
    (h : jsStartsWith body "Application Error: " = true) :
    jsStartsWith body "Application Error:" = true := by
  unfold jsStartsWith at h ⊢
  rw [List.isPrefixOf_iff_prefix] at h ⊢
  exact List.IsPrefix.trans (by decide) h

/-- No readiness chunk before the timeout means the latch stays unset. -/
theorem isConnectedWithin_false (limit : Nat) (chunks : List (Nat × String))
    (h : ∀ c ∈ chunks, c.1 < limit → readinessMatch port c.2 = false) :
    isConnectedWithin port limit chunks = false := by
  unfold isConnectedWithin
  rw [List.any_eq_false]
  intro c hc
  by_cases hlt : c.1 < limit
  · rw [h c hc hlt]
    simp
  · simp [hlt]

/-! ## Claim theorems -/

/-- C1: `killProcess` invocation counts on the terminal outcomes: the
swallowed-timeout run (nothing answering the port) kills once via the
watchdog and the success run kills once at line 205, but the 500 path
(throw at line 192) and the missing-`@response` path (throw at line 196)
never reach line 205 and kill zero times, and a timed-out run whose port is
answered by another process and then succeeds kills twice (watchdog plus
line 205) - the claimed exactly-once invariant fails. -/
theorem run_kill_counts_on_four_outcomes :
    (runCommand baseParams envTimeout).killCount = 1 ∧
    (runCommand baseParams envTimeout).outcome = .error .requestConnectionError ∧
    (runCommand baseParams envOk).killCount = 1 ∧
    (runCommand baseParams envOk).outcome = .ok () ∧
    (runCommand baseParams env500).killCount = 0 ∧
    (runCommand baseParams env500).outcome = .error (.remoteError "boom") ∧
    (runCommand baseParams envProto).killCount = 0 ∧
    (runCommand baseParams envProto).outcome = .error .resultBodyTypeError ∧
    (runCommand baseParams envTimeoutAnswered).killCount = 2 ∧
    (runCommand baseParams envTimeoutAnswered).outcome = .ok () :=
  ⟨rfl, rfl, rfl, rfl, rfl, rfl, rfl, rfl, rfl, rfl⟩

/-- C2 counterexample: a stream that ends with status 200 and never
delivered `@response` makes the run fail with the `TypeError` from
dereferencing the undefined captured result - the unnamed null/undefined
dereference the claim rules out - and not with any named `ProtocolError`. -/
theorem run_no_response_raises_undefined_dereference :
    runCommand baseParams envProto =
      ⟨1, 0, some baseRequest, [], .error .resultBodyTypeError⟩ := rfl

/-- C2 amended: for every stream that ends with status not 500 and in which
no `@response` frame was delivered (and the callback raised no exception),
the run fails with the `TypeError` from dereferencing the undefined result,
and never reaches process termination. -/
theorem run_no_response_fails_with_typeerror (params : Params) (env : ServerEnv)
    (m p : String) (st : CallbackState)
    (hm : normalizeMethod params.flagsM = .ok m)
    (hp : normalizePathname params.args = .ok p)
    (hc : isConnectedWithin port timeoutMs env.stdoutChunks = true)
    (hev : processEvents params.flagV ⟨none, []⟩ env.events = (st, none))
    (hnr : ∀ ev ∈ env.events, ev.event ≠ "@response")
    (hsc : env.statusCode ≠ 500) :
    (runCommand params env).outcome = .error .resultBodyTypeError ∧
    (runCommand params env).killCount = 0 := by
  have hres : st.result = none :=
    processEvents_result params.flagV env.events hnr ⟨none, []⟩ st hev
  constructor <;> simp [runCommand, hm, hp, hc, hev, hres, hsc]

/-- C2 witness: the amended theorem applied to the concrete no-`@response`
run. -/
theorem run_no_response_fails_with_typeerror_witness :
    (runCommand baseParams envProto).outcome = .error .resultBodyTypeError ∧
    (runCommand baseParams envProto).killCount = 0 :=
  run_no_response_fails_with_typeerror baseParams envProto "get" "hello" ⟨none, []⟩
    rfl rfl rfl rfl (by simp [envProto]) (by decide)

/-- C3: `method` is declared `const` and the `del` branch reassigns it, so
for method flag `del` (any letter case) the run throws a `TypeError`
(assignment to constant variable) before any process is spawned, instead of
normalizing to `delete` and proceeding. -/
theorem run_del_method_throws_const_assignment :
    runCommand ⟨["/hello"], ["del"], false, []⟩ envOk =
      ⟨0, 0, none, [], .error .constAssignment⟩ ∧
    runCommand ⟨["/hello"], ["DEL"], false, []⟩ envOk =
      ⟨0, 0, none, [], .error .constAssignment⟩ :=
  ⟨rfl, rfl⟩

/-- C4 counterexample: normalization strips at most ONE leading slash, so
`//a/b` normalizes to `/a/b`, not to `a/b` as the claim (strip all leading
slashes) requires. -/
theorem normalize_keeps_second_leading_slash :
    normalizePathname ["//a/b"] = .ok "/a/b" ∧
    claimedNormalizePath "//a/b" = "a/b" ∧
    ("/a/b" : String) ≠ "a/b" :=
  ⟨rfl, rfl, by decide⟩

/-- C4 amended: for every non-empty path not starting with `..`,
normalization strips at most one leading `.` and then at most one leading
`/`; the claim's three examples all normalize to `a/b`. -/
theorem normalize_strips_at_most_one_dot_one_slash (p : String)
    (h1 : p ≠ "") (h2 : jsStartsWith p ".." = false) :
    normalizePathname [p] =
      .ok (if jsStartsWith (if jsStartsWith p "." then jsDrop p 1 else p) "/"
           then jsDrop (if jsStartsWith p "." then jsDrop p 1 else p) 1
           else (if jsStartsWith p "." then jsDrop p 1 else p)) ∧
    normalizePathname ["./a/b"] = .ok "a/b" ∧
    normalizePathname ["/a/b"] = .ok "a/b" ∧
    normalizePathname ["a/b"] = .ok "a/b" := by
  refine ⟨?_, rfl, rfl, rfl⟩
  simp [normalizePathname, h1, h2]

/-- C4 witness: the amended theorem applied to the dotted example. -/
theorem normalize_strips_at_most_one_dot_one_slash_witness :
    normalizePathname ["./a/b"] = .ok "a/b" :=
  (normalize_strips_at_most_one_dot_one_slash "./a/b" (by decide) rfl).2.1

/-- C5: the claimed timeout behaviour does not happen. When no readiness
pattern appears within the 5000 ms timeout, the watchdog does kill the
child once, but its throw comes only after awaiting `tree-kill`, by which
time the poller has already observed `isTimedOut` and fulfilled the race -
so the `ReadinessTimeoutError` is swallowed, and the run proceeds to hand a
request to `io.request` against the killed server; with nothing answering
the port the surfaced error is the connection failure, never the timeout
message. -/
theorem run_timeout_swallows_error_and_sends_request (params : Params) (env : ServerEnv)
    (m p : String)
    (hm : normalizeMethod params.flagsM = .ok m)
    (hp : normalizePathname params.args = .ok p)
    (hr : ∀ c ∈ env.stdoutChunks, c.1 < timeoutMs → readinessMatch port c.2 = false)
    (hrf : env.reqRefused = true) :
    (runCommand params env).killCount = 1 ∧
    (runCommand params env).requestSent ≠ none ∧
    (runCommand params env).outcome = .error .requestConnectionError ∧
    runCommand baseParams envTimeout =
      ⟨1, 1, some baseRequest, [], .error .requestConnectionError⟩ ∧
    (runCommand baseParams envTimeout).outcome ≠ .error (.readinessTimeout port) ∧
    timeoutMs = 5000 := by
  have hcf := isConnectedWithin_false timeoutMs env.stdoutChunks hr
  refine ⟨?_, ?_, ?_, rfl, ?_, rfl⟩
  · simp [runCommand, hm, hp, hcf, hrf]
  · simp [runCommand, hm, hp, hcf, hrf]
  · simp [runCommand, hm, hp, hcf, hrf]
  · intro hcontra
    rw [show (runCommand baseParams envTimeout).outcome =
          Except.error RunError.requestConnectionError from rfl] at hcontra
    simp at hcontra

/-- C5 witness: the swallowed-timeout theorem applied to a child that never
emits a readiness line, with the port refusing connections. -/
theorem run_timeout_swallows_error_and_sends_request_witness :
    (runCommand baseParams envTimeout).killCount = 1 ∧
    (runCommand baseParams envTimeout).outcome = .error .requestConnectionError := by
  have h := run_timeout_swallows_error_and_sends_request baseParams envTimeout "get" "hello"
    rfl rfl (by simp [envTimeout]) rfl
  exact ⟨h.1, h.2.2.1⟩

/-- C6 counterexample: the prefix test checks `'Application Error:'`
(no trailing space) while 19 characters are sliced off, so the body
`Application Error:boom` yields the message `oom`, while the claim (strip
`'Application Error: '` only when the body starts with it) yields the whole
first line `Application Error:boom`. -/
theorem error_500_prefix_check_mismatch :
    (runCommand baseParams envColon500).outcome = .error (.remoteError "oom") ∧
    claimedErrorMessage "Application Error:boom" = "Application Error:boom" ∧
    ("oom" : String) ≠ "Application Error:boom" :=
  ⟨rfl, rfl, by decide⟩

/-- C6 amended: every 500 response fails with the message computed by
stripping 19 characters when the body starts with `'Application Error:'`
(without the trailing space) and keeping the first line; on bodies that do
start with `'Application Error: '` this agrees with the claim, and the
claim's example gives exactly `boom`. -/
theorem run_500_message_strip_and_first_line (params : Params) (env : ServerEnv)
    (m p : String) (st : CallbackState)
    (hm : normalizeMethod params.flagsM = .ok m)
    (hp : normalizePathname params.args = .ok p)
    (hc : isConnectedWithin port timeoutMs env.stdoutChunks = true)
    (hev : processEvents params.flagV ⟨none, []⟩ env.events = (st, none))
    (hsc : env.statusCode = 500) :
    (runCommand params env).outcome = .error (.remoteError (errorMessage500 env.body)) ∧
    (jsStartsWith env.body "Application Error: " = true →
      errorMessage500 env.body = claimedErrorMessage env.body) ∧
    errorMessage500 "Application Error: boom\nstack line 2" = "boom" := by
  refine ⟨?_, ?_, rfl⟩
  · simp [runCommand, hm, hp, hc, hev, hsc]
  · intro hsw
    simp only [errorMessage500, claimedErrorMessage]
    rw [if_pos (startsWith_colon_of_space env.body hsw), if_pos hsw]

/-- C6 witness: the amended theorem applied to the concrete 500 run with
the claim's example body. -/
theorem run_500_message_strip_and_first_line_witness :
    (runCommand baseParams env500).outcome = .error (.remoteError (errorMessage500 env500.body)) ∧
    errorMessage500 "Application Error: boom\nstack line 2" = "boom" := by
  have h := run_500_message_strip_and_first_line baseParams env500 "get" "hello" ⟨none, []⟩
    rfl rfl rfl rfl rfl
  exact ⟨h.1, h.2.2⟩

/-- The request handed to `io.request` once the server is ready, for any
outcome of the stream. -/
theorem runCommand_requestSent (params : Params) (env : ServerEnv) (m p : String)
    (hm : normalizeMethod params.flagsM = .ok m)
    (hp : normalizePathname params.args = .ok p)
    (hc : isConnectedWithin port timeoutMs env.stdoutChunks = true) :
    (runCommand params env).requestSent =
      some ⟨jsToUpper m, "http://localhost:8199/" ++ p,
        objSet (if m = "get" ∨ m = "delete" then buildFunctionParams params.vflags else [])
          "_debug" "true",
        if m = "post" ∨ m = "put" then
          jsonStringify (.obj ((buildFunctionParams params.vflags).map
            (fun kv => (kv.1, .str kv.2))))
        else ""⟩ := by
  simp only [runCommand, hm, hp, hc, Bool.not_true, Bool.false_eq_true, if_false]
  repeat' split
  all_goals rfl

/-- C7: for GET and DELETE the invocation parameters plus the `_debug` flag
travel in the query and the body is empty; for POST and PUT the parameters
are JSON-serialized into the body and the query carries only `_debug`; in
particular for parameters `x = 1` the GET query is `x=1,_debug=true` with
empty body and the POST body is the JSON text of the object. -/
theorem run_request_params_placement (params : Params) (env : ServerEnv)
    (m p : String)
    (hm : normalizeMethod params.flagsM = .ok m)
    (hp : normalizePathname params.args = .ok p)
    (hc : isConnectedWithin port timeoutMs env.stdoutChunks = true) :
    ((m = "get" ∨ m = "delete") → (runCommand params env).requestSent =
       some ⟨jsToUpper m, "http://localhost:8199/" ++ p,
         objSet (buildFunctionParams params.vflags) "_debug" "true", ""⟩) ∧
    ((m = "post" ∨ m = "put") → (runCommand params env).requestSent =
       some ⟨jsToUpper m, "http://localhost:8199/" ++ p, [("_debug", "true")],
         jsonStringify (.obj ((buildFunctionParams params.vflags).map
           (fun kv => (kv.1, .str kv.2))))⟩) ∧
    (runCommand ⟨["/hello"], [], false, [("x", ["1"])]⟩ envOk).requestSent =
      some ⟨"GET", "http://localhost:8199/hello", [("x", "1"), ("_debug", "true")], ""⟩ ∧
    (runCommand ⟨["/hello"], ["post"], false, [("x", ["1"])]⟩ envOk).requestSent =
      some ⟨"POST", "http://localhost:8199/hello", [("_debug", "true")],
        "\x7b\"x\":\"1\"\x7d"⟩ := by
  refine ⟨?_, ?_, rfl, rfl⟩
  · intro hmd
    rw [runCommand_requestSent params env m p hm hp hc]
    have h2 : ¬(m = "post" ∨ m = "put") := by rcases hmd with rfl | rfl <;> simp
    rw [if_pos hmd, if_neg h2]
  · intro hmd
    rw [runCommand_requestSent params env m p hm hp hc]
    have h2 : ¬(m = "get" ∨ m = "delete") := by rcases hmd with rfl | rfl <;> simp
    rw [if_pos hmd, if_neg h2]
    rfl

/-- C7 witness: the placement theorem applied to the concrete GET run with
parameter `x = 1`. -/
theorem run_request_params_placement_witness :
    (runCommand ⟨["/hello"], [], false, [("x", ["1"])]⟩ envOk).requestSent =
      some ⟨"GET", "http://localhost:8199/hello", [("x", "1"), ("_debug", "true")], ""⟩ :=
  (run_request_params_placement ⟨["/hello"], [], false, [("x", ["1"])]⟩ envOk "get" "hello"
    rfl rfl rfl).1 (Or.inl rfl)

/-- C8: an unsupported method flag (case-insensitively outside
get/post/put/delete/del) or a missing pathname argument makes the run throw
before the spawn line, with zero processes ever created. -/
theorem run_invalid_input_fails_before_spawn (params : Params) (env : ServerEnv) :
    ((["get", "post", "put", "delete", "del"].contains (rawMethod params.flagsM) = false) →
      runCommand params env =
        ⟨0, 0, none, [], .error (.methodNotSupported (rawMethod params.flagsM))⟩) ∧
    (∀ m, normalizeMethod params.flagsM = .ok m → params.args.headD "" = "" →
      runCommand params env = ⟨0, 0, none, [], .error .missingPathname⟩) := by
  constructor
  · intro hbad
    have hnm : normalizeMethod params.flagsM =
        .error (.methodNotSupported (rawMethod params.flagsM)) := by
      simp only [normalizeMethod]
      rw [if_pos hbad]
    simp [runCommand, hnm]
  · intro m hm hmiss
    have hnp : normalizePathname params.args = .error .missingPathname := by
      simp only [normalizePathname]
      rw [hmiss]
      rfl
    simp [runCommand, hm, hnp]

/-- C8 witness: the theorem applied to the method `patch` and to a missing
pathname. -/
theorem run_invalid_input_fails_before_spawn_witness :
    runCommand ⟨[], ["patch"], false, []⟩ envOk =
      ⟨0, 0, none, [], .error (.methodNotSupported "patch")⟩ ∧
    runCommand ⟨[], [], false, []⟩ envOk = ⟨0, 0, none, [], .error .missingPathname⟩ :=
  ⟨(run_invalid_input_fails_before_spawn ⟨[], ["patch"], false, []⟩ envOk).1 rfl,
   (run_invalid_input_fails_before_spawn ⟨[], [], false, []⟩ envOk).2 "get" rfl rfl⟩

/-- C9: stream frames are consumed strictly in arrival order (processing a
concatenation runs the halves in sequence and printing only appends), and
the concrete `@stdout`-then-`@response` stream prints the stdout line first
and ends by printing the parsed `@response` payload body. -/
theorem stream_events_processed_in_order (v : Bool) (st st1 : CallbackState)
    (e1 e2 : List StreamEvent) (h : processEvents v st e1 = (st1, none)) :
    processEvents v st (e1 ++ e2) = processEvents v st1 e2 ∧
    (∃ t, st1.printed = st.printed ++ t) ∧
    runCommand baseParams envOk = ⟨1, 1, some baseRequest, ["hello", okPretty], .ok ()⟩ :=
  ⟨processEvents_append v e1 e2 st st1 h,
   processEvents_printed v e1 st st1 none h,
   rfl⟩

/-- C9 witness: the ordering theorem applied to the concrete
`@stdout`-then-`@response` stream. -/
theorem stream_events_processed_in_order_witness :
    processEvents false ⟨none, []⟩ ([stdoutEvent] ++ [responseEvent]) =
      processEvents false ⟨none, ["hello"]⟩ [responseEvent] :=
  (stream_events_processed_in_order false ⟨none, []⟩ ⟨none, ["hello"]⟩
    [stdoutEvent] [responseEvent] rfl).1

/-- C10: with pairwise-distinct vflag names, every vflag contributes exactly
one parameter-map entry whose value is its word list joined with single
spaces; a multi-word vflag becomes one space-joined string. -/
theorem vflags_space_joined (vflags : List (String × List String))
    (hnd : (vflags.map Prod.fst).Nodup) :
    buildFunctionParams vflags = vflags.map (fun kv => (kv.1, joinSpace kv.2)) ∧
    joinSpace ["hello", "world"] = "hello world" ∧
    buildFunctionParams [("x", ["1"]), ("name", ["hello", "world"])] =
      [("x", "1"), ("name", "hello world")] :=
  ⟨buildFunctionParams_eq_map vflags hnd, rfl, rfl⟩

/-- C10 witness: the theorem applied to two concrete vflags. -/
theorem vflags_space_joined_witness :
    buildFunctionParams [("x", ["1"]), ("name", ["hello", "world"])] =
      [("x", ["1"]), ("name", ["hello", "world"])].map (fun kv => (kv.1, joinSpace kv.2)) :=
  (vflags_space_joined [("x", ["1"]), ("name", ["hello", "world"])] (by decide)).1

end InstantRun
